import Mathlib

/-
Verification development for the Backend controller of a component-tree
inspector (src/backend/Backend.js). The JavaScript source is shallowly
embedded: JS values become the inductive `JVal`, the mutable registries of
the Backend class become explicit record state, in-place mutation of a
stored snapshot is modeled by writing the updated snapshot back into the
node store (JS aliasing makes the two observationally equal), emitted
events and console logging become explicit effect lists, and code paths
that raise a TypeError are modeled with `Except`.
-/

namespace Backend

/-! ## JS values

A first-order model of the JavaScript values that flow through the path
accessor and the snapshots: `undef` is `undefined`, `null` is `null`,
objects are association lists of string keys (first binding wins, as for
JS own properties, which are unique). Arrays, functions and string
exotics (index/length properties) are outside the model; no claim
depends on them. Numbers are modeled as integers, enough for the claims,
which never compute with them. -/

inductive JVal where
  | undefined
  | null
  | bool (b : Bool)
  | num (n : Int)
  | str (s : String)
  | obj (fields : List (String × JVal))

/-- JS truthiness of a value (`obj ? _ : _`). NaN and exotic cases are out
of scope; empty string and zero are falsy, every object is truthy. -/
def truthy : JVal → Bool
  | .undefined => false
  | .null => false
  | .bool b => b
  | .num n => n != 0
  | .str s => s != ""
  | .obj _ => true

/-- Own-property lookup on an object field list; a missing key yields
`undefined`, as `obj[attr]` does in JS. -/
def getField : List (String × JVal) → String → JVal
  | [], _ => .undefined
  | (k, w) :: t, key => if k = key then w else getField t key

/-- Own-property write: update the first binding of the key in place
(JS keeps the slot), append a new binding otherwise. -/
def setField : List (String × JVal) → String → JVal → List (String × JVal)
  | [], key, v => [(key, v)]
  | (k, w) :: t, key, v =>
      if k = key then (key, v) :: t else (k, w) :: setField t key v

/-- Property access `v[key]`: field lookup on objects, `undefined` on
primitives. Callers guard against `null`/`undefined` receivers with
`truthy`, matching the `obj ? obj[attr] : null` reducer of the source. -/
def getProp (v : JVal) (key : String) : JVal :=
  match v with
  | .obj fs => getField fs key
  | _ => .undefined

/-! ## Path accessor (`setIn` / `getIn`, Backend.js lines 331-346)

`setIn(obj, path, value)`:
```
path = path.slice();
var name = path.pop();
var child = path.reduce((obj, attr) => obj ? obj[attr] : null, obj);
if (child === null) { return false; }
child[name] = value;
return true;
```
The reducer turns a falsy accumulator into `null`; only the final strict
`child === null` test short-circuits. If the reduce ends on `undefined`
(a missing attribute read in the very last step) or on a truthy
primitive, the assignment `child[name] = value` throws a TypeError (the
file is in strict mode). The three observable outcomes are: -/

inductive SetInOut where
  | thrown
  | failed
  | ok (newRoot : JVal)

/-- The walk of `setIn` over the intermediate keys (all but the popped
last key), carrying the JS accumulator semantics: on an object, descend
into the field (mutation there is visible from the root, which the
functional model renders by rebuilding the spine); on a truthy
non-object the property read yields `undefined`; on a falsy value the
reducer substitutes `null`. At the end of the walk, `null` returns
`false`, an object receives the assignment, anything else throws. -/
def setInGo (cur : JVal) (inter : List String) (name : String) (v : JVal) : SetInOut :=
  match inter with
  | [] =>
      match cur with
      | .null => .failed
      | .obj fs => .ok (.obj (setField fs name v))
      | _ => .thrown
  | k :: rest =>
      match cur with
      | .obj fs =>
          match setInGo (getField fs k) rest name v with
          | .ok newChild => .ok (.obj (setField fs k newChild))
          | .failed => .failed
          | .thrown => .thrown
      | _ =>
          if truthy cur then setInGo .undefined rest name v
          else setInGo .null rest name v

/-- `setIn` splits off the last key with `pop` and walks the rest. On an
empty path, `pop` yields `undefined`, which the assignment coerces to
the property key "undefined". -/
def setIn (root : JVal) (path : List String) (v : JVal) : SetInOut :=
  match path.reverse with
  | [] => setInGo root [] "undefined" v
  | name :: revInter => setInGo root revInter.reverse name v

/-- `getIn(obj, path)` is `path.reduce((obj, attr) => obj ? obj[attr] : null, obj)`,
written recursively over the path. -/
def getIn (root : JVal) (path : List String) : JVal :=
  match path with
  | [] => root
  | k :: rest => getIn (if truthy root then getProp root k else .null) rest

/-- Decidable statement that every intermediate container on the key path
exists: the current value is an object, and recursively so along the
fields named by the path. Used to phrase the set-then-get claim. -/
def interOk (cur : JVal) : List String → Bool
  | [] => match cur with | .obj _ => true | _ => false
  | k :: rest => match cur with | .obj fs => interOk (getField fs k) rest | _ => false

/-- Set-then-get composition: `some` of the value read back at the path
when `setIn` succeeded, `none` when it failed or threw. -/
def setThenGet (root : JVal) (path : List String) (v : JVal) : Option JVal :=
  match setIn root path v with
  | .ok r => some (getIn r path)
  | _ => none

/-! ## Handles, snapshots and outbound messages

A `Handle` is what the host passes as a component: an opaque object
reference (identified by reference, modeled as a `Nat` tag) or a
non-object primitive, which `getId` returns unchanged (string-valued
primitives are the only ones a claim can observe, so the model carries a
string). -/

inductive Handle where
  | obj (r : Nat)
  | prim (s : String)
deriving DecidableEq

/-- The updater capability record of a snapshot. The booleans record
whether the corresponding member is present (a truthy function), which is
all the duck-typed checks `data.updater && data.updater.forceUpdate`
observe. -/
structure Updater where
  hasSetState : Bool
  forceUpdate : Bool
  publicInstance : JVal

/-- The `children` member of a snapshot: absent, an array of component
handles (the only case with a `.map` method in the model), or some other
value, which the mount/update transform leaves untouched. -/
inductive ChildrenF where
  | absent
  | arr (hs : List Handle)
  | other (v : JVal)

/-- A `NodeSnapshot` (the `DataType` of the source): the per-component
record the host supplies on mount/update and the node store caches. -/
structure DataType where
  name : JVal
  type : JVal
  state : JVal
  props : JVal
  context : JVal
  updater : Option Updater
  children : ChildrenF

/-- `send.updater && !!send.updater.forceUpdate`: true exactly when the
updater record is present and carries a (truthy) forceUpdate. When the
updater is absent the JS expression is a falsy `undefined`, modeled as
`false`. -/
def canUpd : Option Updater → Bool
  | none => false
  | some u => u.forceUpdate

/-- Values stored in an outbound mount/update message object. The message
is a genuine JS object built by `assign`, property writes and `delete`,
so it is modeled as a key list rather than a fixed record, letting the
absence of the `type`/`updater` keys be a provable statement. -/
inductive MVal where
  | jv (v : JVal)
  | upd (u : Updater)
  | chH (hs : List Handle)
  | chI (ids : List String)
  | idv (i : Option String)
  | bv (b : Bool)

/-- First-binding lookup in a message object. -/
def lookupKey : List (String × MVal) → String → Option MVal
  | [], _ => none
  | (k, w) :: t, key => if k = key then some w else lookupKey t key

/-- Property write on a message object: replace the first binding in
place, append when the key is new. -/
def setKey : List (String × MVal) → String → MVal → List (String × MVal)
  | [], key, v => [(key, v)]
  | (k, w) :: t, key, v =>
      if k = key then (key, v) :: t else (k, w) :: setKey t key v

/-- `delete send[key]`: drop the binding of the key. JS own-property keys
are unique, so dropping every binding of the key is the same operation
on any list that images a JS object. -/
def delKey : List (String × MVal) → String → List (String × MVal)
  | [], _ => []
  | (k, w) :: t, key => if k = key then delKey t key else (k, w) :: delKey t key

/-- `assign({}, data)`: the shallow copy of a snapshot as a key list, one
binding per present member. An absent optional member has no key. -/
def DataType.toPairs (d : DataType) : List (String × MVal) :=
  [("name", .jv d.name), ("type", .jv d.type), ("state", .jv d.state),
   ("props", .jv d.props), ("context", .jv d.context)]
  ++ (match d.updater with | some u => [("updater", .upd u)] | none => [])
  ++ (match d.children with
      | .absent => []
      | .arr hs => [("children", .chH hs)]
      | .other v => [("children", .jv v)])

/-! ## Backend state and effects -/

/-- The injected `reactInternals` tree adapter; only the member the
modeled operations consume. Native nodes are opaque, modeled as `Nat`.
The adapter may return no node (`null`). -/
structure Internals where
  getNative : Handle → Option Nat

/-- The mutable registries of the Backend instance: `ids` is the WeakMap
from object handles to identifiers, `comps` the Map from identifiers to
handles, `nodes` the Map from identifiers to snapshots, `roots` the Set
of root identifiers. `ctr` indexes the next draw from the identifier
supply (the model of successive `randid()` calls). `nodes` is keyed by
`Option String` because the `comps.get(id)` miss inside a mutation
command can thread a JS `undefined` identifier into `nodes.set`. -/
structure BState where
  ids : Nat → Option String
  comps : String → Option Handle
  nodes : Option String → Option DataType
  roots : String → Bool
  ctr : Nat
  internals : Option Internals

/-- The state of a freshly constructed Backend (empty registries). -/
def initState (i : Option Internals) : BState :=
  { ids := fun _ => none, comps := fun _ => none, nodes := fun _ => none,
    roots := fun _ => false, ctr := 0, internals := i }

/-- Outbound events emitted via `this.emit`. -/
inductive Ev where
  | root (id : String)
  | mount (send : List (String × MVal))
  | update (send : List (String × MVal))
  | unmount (id : String)
  | highlightEv (node : Nat) (nm : JVal) (props : JVal)

/-- Observable effects of one operation: emitted events, console
warnings, invocations of the host update trigger, and scroll-into-view
calls on native nodes. -/
structure Eff where
  events : List Ev
  logs : List String
  triggers : Nat
  scrolls : List Nat

def emptyEff : Eff := ⟨[], [], 0, []⟩

def nodesSet (st : BState) (i : Option String) (d : Option DataType) : BState :=
  { st with nodes := fun j => if j = i then d else st.nodes j }

def rootsSet (st : BState) (i : String) (b : Bool) : BState :=
  { st with roots := fun j => if j = i then b else st.roots j }

/-! ## Identity registry (`getId`, Backend.js lines 271-280)

```
getId(element) {
  if ('object' !== typeof element) { return element; }
  if (!this.ids.has(element)) {
    this.ids.set(element, randid());
    this.comps.set(this.ids.get(element), element);
  }
  return this.ids.get(element);
}
```
`randid()` draws from `Math.random()`; the model threads an ambient
supply `sup : Nat → String` indexed by the draw counter, so properties
that need collision-free generation state that assumption as injectivity
of the supply. -/
def getId (sup : Nat → String) (st : BState) (h : Handle) : String × BState :=
  match h with
  | .prim s => (s, st)
  | .obj r =>
      match st.ids r with
      | some i => (i, st)
      | none =>
          (sup st.ctr,
           { st with
             ids := fun r' => if r' = r then some (sup st.ctr) else st.ids r',
             comps := fun s => if s = sup st.ctr then some (.obj r) else st.comps s,
             ctr := st.ctr + 1 })

/-- `getId` applied to a possibly-undefined component (the result of a
`comps.get` miss): `typeof undefined` is not `'object'`, so `getId`
returns the value unchanged, i.e. an undefined identifier. -/
def getIdO (sup : Nat → String) (st : BState) : Option Handle → Option String × BState
  | none => (none, st)
  | some h => (some (getId sup st h).1, (getId sup st h).2)

/-- `send.children.map(c => this.getId(c))`: identifier of each child in
order, threading the registrations each `getId` may perform. -/
def mapGetIds (sup : Nat → String) (st : BState) : List Handle → List String × BState
  | [] => ([], st)
  | h :: t =>
      ((getId sup st h).1 :: (mapGetIds sup (getId sup st h).2 t).1,
       (mapGetIds sup (getId sup st h).2 t).2)

/-! ## Event normalizer (`onMounted` / `onUpdated`, lines 288-316)

Both methods store the snapshot under the component identifier, then
build the outbound message from a shallow copy: rewrite `children` when
it is an array, attach `id`, derive `canUpdate`, delete `type` and
`updater`, and emit. -/

/-- The children rewrite on the copied snapshot, together with the
registry state after the child `getId` calls. Non-array children are
left as copied (`send.children && send.children.map` fails). -/
def childPart (sup : Nat → String) (st : BState) (d : DataType) :
    List (String × MVal) × BState :=
  match d.children with
  | .arr hs =>
      (setKey d.toPairs "children" (.chI (mapGetIds sup st hs).1),
       (mapGetIds sup st hs).2)
  | _ => (d.toPairs, st)

/-- The outbound message of a mount/update: copy, children rewrite,
`send.id = id`, `send.canUpdate = send.updater && !!send.updater.forceUpdate`,
`delete send.type`, `delete send.updater`. -/
def buildSend (sup : Nat → String) (st : BState) (i : Option String) (d : DataType) :
    List (String × MVal) × BState :=
  (delKey (delKey (setKey (setKey (childPart sup st d).1 "id" (.idv i))
      "canUpdate" (.bv (canUpd d.updater))) "type") "updater",
   (childPart sup st d).2)

/-- State after `var id = this.getId(component); this.nodes.set(id, data)`
in `onMounted`. -/
def mountState (sup : Nat → String) (st : BState) (h : Handle) (d : DataType) : BState :=
  nodesSet (getId sup st h).2 (some (getId sup st h).1) (some d)

/-- The message `onMounted` emits. -/
def mountSend (sup : Nat → String) (st : BState) (h : Handle) (d : DataType) :
    List (String × MVal) :=
  (buildSend sup (mountState sup st h d) (some (getId sup st h).1) d).1

def onMounted (sup : Nat → String) (st : BState) (h : Handle) (d : DataType) :
    Eff × BState :=
  ({ emptyEff with events := [.mount (mountSend sup st h d)] },
   (buildSend sup (mountState sup st h d) (some (getId sup st h).1) d).2)

/-- State after the store step of `onUpdated`, over a possibly-undefined
component reference. -/
def updState (sup : Nat → String) (st : BState) (c : Option Handle) (d : DataType) : BState :=
  nodesSet (getIdO sup st c).2 (getIdO sup st c).1 (some d)

/-- The message `onUpdated` emits. -/
def updSend (sup : Nat → String) (st : BState) (c : Option Handle) (d : DataType) :
    List (String × MVal) :=
  (buildSend sup (updState sup st c d) (getIdO sup st c).1 d).1

def onUpdatedO (sup : Nat → String) (st : BState) (c : Option Handle) (d : DataType) :
    Eff × BState :=
  ({ emptyEff with events := [.update (updSend sup st c d)] },
   (buildSend sup (updState sup st c d) (getIdO sup st c).1 d).2)

/-- `onUpdated` as the host calls it, with a real component. -/
def onUpdated (sup : Nat → String) (st : BState) (h : Handle) (d : DataType) :
    Eff × BState :=
  onUpdatedO sup st (some h) d

/-- `addRoot` (lines 282-286): resolve the identifier, add it to the root
set, emit `root`. -/
def addRoot (sup : Nat → String) (st : BState) (h : Handle) : Eff × BState :=
  ({ emptyEff with events := [.root (getId sup st h).1] },
   rootsSet (getId sup st h).2 (getId sup st h).1 true)

/-! ## Unmount (`onUnmounted`, lines 318-324)

```
onUnmounted(component) {
  var id = this.getId(component);
  this.nodes.delete(id);
  this.roots.delete(id);
  this.emit('unmount', id);
  this.ids.delete(component);
}
```
The definition is split at the emit so the ordering stated by the spec is
visible: `unmountPre` is the state when `emit('unmount', id)` fires, and
the identity-registry deletion happens only after. `comps` is not touched
anywhere in the method. -/

def unmountPre (sup : Nat → String) (st : BState) (h : Handle) : String × BState :=
  ((getId sup st h).1,
   rootsSet (nodesSet (getId sup st h).2 (some (getId sup st h).1) none)
     (getId sup st h).1 false)

/-- `this.ids.delete(component)`; a WeakMap delete of a primitive key is
a no-op. -/
def delIds (st : BState) (h : Handle) : BState :=
  match h with
  | .obj r => { st with ids := fun r' => if r' = r then none else st.ids r' }
  | .prim _ => st

def onUnmounted (sup : Nat → String) (st : BState) (h : Handle) : Eff × BState :=
  ({ emptyEff with events := [.unmount (unmountPre sup st h).1] },
   delIds (unmountPre sup st h).2 h)

/-! ## Mutation commands (`_setProps` / `_setState` / `_setContext`,
lines 226-257)

The three methods differ only in the targeted field and the warning
text (the source repeats the "state" wording for context):
```
_setProps({id, path, value}) {
  var data = this.nodes.get(id);
  setIn(data.props, path, value);
  if (data.updater && data.updater.forceUpdate) {
    data.updater.forceUpdate();
    this.onUpdated(this.comps.get(id), data);
  } else {
    console.warn(...);
  }
}
```
Reading `.props` of an unknown id (an undefined `data`) throws a
TypeError, modeled as `.error ()`; so does a `setIn` whose walk ends on a
non-null non-object. The path write happens before the updater check, and
`data` is the very object stored in `nodes`, so a successful write is
visible in the node store (modeled by writing the updated snapshot back). -/

inductive MutKind where
  | props
  | state
  | context

def fieldOf : MutKind → DataType → JVal
  | .props, d => d.props
  | .state, d => d.state
  | .context, d => d.context

def withField : MutKind → DataType → JVal → DataType
  | .props, d, v => { d with props := v }
  | .state, d, v => { d with state := v }
  | .context, d, v => { d with context := v }

/-- The console.warn text of each rejected mutation; the apostrophe of
the source wording is expanded to "does not" here. The context handler
of the source repeats the "state" wording. -/
def warnMsg : MutKind → String
  | .props => "trying to set props on a component that does not support it"
  | .state => "trying to set state on a component that does not support it"
  | .context => "trying to set state on a component that does not support it"

/-- `this.comps.get(id)` for a possibly-undefined id. -/
def compsLookup (st : BState) : Option String → Option Handle
  | none => none
  | some s => st.comps s

def setMut (sup : Nat → String) (k : MutKind) (st : BState) (i : Option String)
    (path : List String) (v : JVal) : Except Unit (Eff × BState) :=
  match st.nodes i with
  | none => .error ()
  | some data =>
      match setIn (fieldOf k data) path v with
      | .thrown => .error ()
      | .failed =>
          if canUpd data.updater then
            .ok ({ (onUpdatedO sup st (compsLookup st i) data).1 with
                     triggers := (onUpdatedO sup st (compsLookup st i) data).1.triggers + 1 },
                 (onUpdatedO sup st (compsLookup st i) data).2)
          else
            .ok ({ emptyEff with logs := [warnMsg k] }, st)
      | .ok nv =>
          if canUpd data.updater then
            .ok ({ (onUpdatedO sup (nodesSet st i (some (withField k data nv)))
                       (compsLookup st i) (withField k data nv)).1 with
                     triggers := (onUpdatedO sup (nodesSet st i (some (withField k data nv)))
                       (compsLookup st i) (withField k data nv)).1.triggers + 1 },
                 (onUpdatedO sup (nodesSet st i (some (withField k data nv)))
                   (compsLookup st i) (withField k data nv)).2)
          else
            .ok ({ emptyEff with logs := [warnMsg k] },
                 nodesSet st i (some (withField k data nv)))

/-! ## Selection / highlight (`getNodeForID`, `highlight`,
`scrollToNode`, lines 150-194) -/

/-- `getNodeForID`: `comps.get(id)`, then the injected adapter; `null`
when either is missing. -/
def getNodeForID (st : BState) (i : Option String) : Option Nat :=
  match compsLookup st i with
  | none => none
  | some c =>
      match st.internals with
      | none => none
      | some f => f.getNative c

/-- `highlight(id)`: reads `nodes.get(id)` and the native node; emits
only when a node was found. When a node is found but the snapshot is
gone (a stale id unmounted from `nodes` while still in `comps`), the
read `data.name` throws. -/
def highlight (st : BState) (i : Option String) : Except Unit Eff :=
  match getNodeForID st i with
  | none => .ok emptyEff
  | some n =>
      match st.nodes i with
      | some d => .ok { emptyEff with events := [.highlightEv n d.name d.props] }
      | none => .error ()

/-- `scrollToNode(id)`: warn and return when no native node resolves,
otherwise scroll it into view and highlight. -/
def scrollToNode (st : BState) (i : Option String) : Except Unit Eff :=
  match getNodeForID st i with
  | none => .ok { emptyEff with logs := ["unable to get the node for scrolling"] }
  | some n =>
      match highlight st i with
      | .error e => .error e
      | .ok eff => .ok { eff with scrolls := n :: eff.scrolls }

/-! ## Reachable states

The registry-mutating operations of the Backend, as a step relation.
(`selectFromReactInstance` and `getIDForNode` mutate the registries only
through the `getId` they contain, which is a step of its own; `highlight`,
`highlightMany`, `scrollToNode` and `_makeGlobal` never write the
registries.) A step that throws leaves the state as mutated so far; every
throw point of the modeled operations occurs before any mutation, so the
state is the entry state. -/

inductive Act where
  | getId (h : Handle)
  | addRoot (h : Handle)
  | onMounted (h : Handle) (d : DataType)
  | onUpdated (h : Handle) (d : DataType)
  | onUnmounted (h : Handle)
  | setMut (k : MutKind) (i : Option String) (path : List String) (v : JVal)
  | setInternals (i : Option Internals)

def exec (sup : Nat → String) (a : Act) (st : BState) : BState :=
  match a with
  | .getId h => (getId sup st h).2
  | .addRoot h => (addRoot sup st h).2
  | .onMounted h d => (onMounted sup st h d).2
  | .onUpdated h d => (onUpdated sup st h d).2
  | .onUnmounted h => (onUnmounted sup st h).2
  | .setMut k i p v =>
      match setMut sup k st i p v with
      | .ok pr => pr.2
      | .error _ => st
  | .setInternals i => { st with internals := i }

/-- States reachable from a fresh Backend by any sequence of operations. -/
inductive Reach (sup : Nat → String) : BState → Prop where
  | init (i : Option Internals) : Reach sup (initState i)
  | step {st : BState} (h : Reach sup st) (a : Act) : Reach sup (exec sup a st)

/-! ## Registry invariant

The identity registry keeps, in every reachable state, the forward
inverse direction (every `ids` entry has a matching `comps` entry) and a
freshness bound (every identifier held in `ids` was drawn from the
supply at an index below the counter). The backward direction is NOT an
invariant: `onUnmounted` deletes only from `ids`. -/
def Inv (sup : Nat → String) (st : BState) : Prop :=
  (∀ r i, st.ids r = some i → st.comps i = some (.obj r)) ∧
  (∀ r i, st.ids r = some i → ∃ k, k < st.ctr ∧ i = sup k)

/-- A concrete injective identifier supply for closed instances:
`sup0 n` is the string of `n + 1` letters a. -/
def sup0 : Nat → String := fun n => String.mk (List.replicate (n + 1) 'a')

/-- Concrete reachable state: one object handle registered. -/
def st1r : BState := exec sup0 (.getId (.obj 0)) (initState none)

/-- Concrete reachable state: two object handles registered. -/
def st2r : BState := exec sup0 (.getId (.obj 1)) st1r

/-- Concrete reachable state: the handle of `st1r` registered and then
unmounted. -/
def st1u : BState := exec sup0 (.onUnmounted (.obj 0)) st1r

/-- Concrete snapshot with props `{x: 1}` and no updater capability. -/
def dataA : DataType :=
  { name := .str "Foo", type := .undefined, state := .undefined,
    props := .obj [("x", .num 1)], context := .undefined,
    updater := none, children := .absent }

/-- Concrete state whose node store maps identifier A to `dataA`. -/
def stA : BState := nodesSet (initState none) (some "A") (some dataA)

/-- Concrete snapshot with two children and a full updater capability. -/
def dataB : DataType :=
  { name := .str "Bar", type := .str "tag", state := .undefined,
    props := .obj [("x", .num 1)], context := .undefined,
    updater := some { hasSetState := true, forceUpdate := true, publicInstance := .null },
    children := .arr [.obj 5, .prim "leaf"] }

/-- Concrete nested object `{a: {b: {}}}` for the set-then-get instance. -/
def root0 : JVal := .obj [("a", .obj [("b", .obj [])])]

/-- The outbound-message shape produced by the mount/update transform of
a snapshot `d` carrying identifier `i`, with child identifiers resolved
at registry state `stc`: no `type` or `updater` key, the attached `id`,
the derived `canUpdate` boolean, the copied descriptive fields, and the
children rewritten to identifiers exactly when they are sequence-valued. -/
def sendSpec (sup : Nat → String) (d : DataType) (i : Option String) (stc : BState)
    (M : List (String × MVal)) : Prop :=
  lookupKey M "type" = none ∧
  lookupKey M "updater" = none ∧
  lookupKey M "id" = some (.idv i) ∧
  lookupKey M "canUpdate" = some (.bv (canUpd d.updater)) ∧
  lookupKey M "name" = some (.jv d.name) ∧
  lookupKey M "state" = some (.jv d.state) ∧
  lookupKey M "props" = some (.jv d.props) ∧
  lookupKey M "context" = some (.jv d.context) ∧
  (∀ hs, d.children = .arr hs →
    lookupKey M "children" = some (.chI (mapGetIds sup stc hs).1)) ∧
  (d.children = .absent → lookupKey M "children" = none)

/-! # Theorems -/

/-! ## Path accessor lemmas -/

theorem setIn_append (root : JVal) (inter : List String) (name : String) (v : JVal) :
    setIn root (inter ++ [name]) v = setInGo root inter name v := by
  simp [setIn, List.reverse_append]

theorem getField_setField (fs : List (String × JVal)) (key : String) (v : JVal) :
    getField (setField fs key v) key = v := by
  induction fs with
  | nil => simp [setField, getField]
  | cons p t ih =>
      by_cases h : p.1 = key
      · simp [setField, h, getField]
      · simp [setField, h, getField, ih]

theorem getIn_obj_cons (fs : List (String × JVal)) (k : String) (rest : List String) :
    getIn (.obj fs) (k :: rest) = getIn (getField fs k) rest := by
  simp [getIn, truthy, getProp]

theorem setInGo_roundtrip (inter : List String) (cur : JVal) (name : String) (v : JVal)
    (h : interOk cur inter = true) :
    ∃ r, setInGo cur inter name v = .ok r ∧ getIn r (inter ++ [name]) = v := by
  induction inter generalizing cur with
  | nil =>
      match cur with
      | .obj fs =>
          refine ⟨.obj (setField fs name v), rfl, ?_⟩
          simp [getIn_obj_cons, getField_setField, getIn, truthy, getProp]
  | cons k rest ih =>
      match cur, h with
      | .obj fs, h =>
          have h' : interOk (getField fs k) rest = true := by
            simpa [interOk] using h
          obtain ⟨r', hset, hget⟩ := ih (getField fs k) h'
          refine ⟨.obj (setField fs k r'), ?_, ?_⟩
          · simp [setInGo, hset]
          · simpa [getIn_obj_cons, getField_setField] using hget

/-! ## Identity registry lemmas -/

theorem sup0_inj : Function.Injective sup0 := by
  intro a b h
  have hlen := congrArg (fun s => s.data.length) h
  simpa [sup0] using hlen

theorem getId_known {sup : Nat → String} {st : BState} {r : Nat} {i : String}
    (h : st.ids r = some i) : getId sup st (.obj r) = (i, st) := by
  simp [getId, h]

theorem getId_ids_self (sup : Nat → String) (st : BState) (r : Nat) :
    (getId sup st (.obj r)).2.ids r = some (getId sup st (.obj r)).1 := by
  cases h : st.ids r with
  | some i => simp [getId, h]
  | none => simp [getId, h]

theorem getId_nodes (sup : Nat → String) (st : BState) (h : Handle) :
    (getId sup st h).2.nodes = st.nodes := by
  cases h with
  | prim s => rfl
  | obj r => cases hh : st.ids r <;> simp [getId, hh]

theorem mapGetIds_nodes (sup : Nat → String) (hs : List Handle) :
    ∀ st : BState, (mapGetIds sup st hs).2.nodes = st.nodes := by
  induction hs with
  | nil => intro st; rfl
  | cons h t ih =>
      intro st
      simp [mapGetIds, ih, getId_nodes]

theorem childPart_nodes (sup : Nat → String) (st : BState) (d : DataType) :
    (childPart sup st d).2.nodes = st.nodes := by
  cases hc : d.children <;> simp [childPart, hc, mapGetIds_nodes]

theorem buildSend_nodes (sup : Nat → String) (st : BState) (i : Option String)
    (d : DataType) : (buildSend sup st i d).2.nodes = st.nodes := by
  simp [buildSend, childPart_nodes]

/-! ## Invariant preservation -/

theorem inv_congr {sup : Nat → String} {st st' : BState} (h1 : st'.ids = st.ids)
    (h2 : st'.comps = st.comps) (h3 : st'.ctr = st.ctr) (h : Inv sup st) :
    Inv sup st' := by
  obtain ⟨ha, hb⟩ := h
  refine ⟨fun r i hri => ?_, fun r i hri => ?_⟩
  · rw [h2]
    exact ha r i (by rw [← h1]; exact hri)
  · obtain ⟨k, hk, hik⟩ := hb r i (by rw [← h1]; exact hri)
    exact ⟨k, by rw [h3]; exact hk, hik⟩

theorem inv_init (sup : Nat → String) (io : Option Internals) :
    Inv sup (initState io) := by
  refine ⟨fun r i hri => ?_, fun r i hri => ?_⟩ <;> simp [initState] at hri

theorem inv_getId {sup : Nat → String} (hinj : Function.Injective sup) {st : BState}
    (h : Inv sup st) (hd : Handle) : Inv sup (getId sup st hd).2 := by
  obtain ⟨ha, hb⟩ := h
  cases hd with
  | prim s => exact ⟨ha, hb⟩
  | obj r =>
      cases hh : st.ids r with
      | some i => simpa [getId, hh] using And.intro ha hb
      | none =>
          simp only [getId, hh]
          refine ⟨fun r' i hri => ?_, fun r' i hri => ?_⟩
          · simp only at hri ⊢
            by_cases hr : r' = r
            · subst hr
              simp only [if_pos rfl] at hri
              cases hri
              simp
            · rw [if_neg hr] at hri
              obtain ⟨k, hk, rfl⟩ := hb r' i hri
              have hne : sup k ≠ sup st.ctr := fun he =>
                absurd (hinj he) (Nat.ne_of_lt hk)
              simp only [if_neg hne]
              exact ha r' (sup k) hri
          · simp only at hri ⊢
            by_cases hr : r' = r
            · subst hr
              simp only [if_pos rfl] at hri
              cases hri
              exact ⟨st.ctr, Nat.lt_succ_self _, rfl⟩
            · rw [if_neg hr] at hri
              obtain ⟨k, hk, rfl⟩ := hb r' i hri
              exact ⟨k, Nat.lt_succ_of_lt hk, rfl⟩

theorem inv_getIdO {sup : Nat → String} (hinj : Function.Injective sup) {st : BState}
    (h : Inv sup st) (c : Option Handle) : Inv sup (getIdO sup st c).2 := by
  cases c with
  | none => exact h
  | some hd => exact inv_getId hinj h hd

theorem inv_mapGetIds {sup : Nat → String} (hinj : Function.Injective sup)
    (hs : List Handle) : ∀ {st : BState}, Inv sup st → Inv sup (mapGetIds sup st hs).2 := by
  induction hs with
  | nil => intro st h; exact h
  | cons hd t ih =>
      intro st h
      simpa [mapGetIds] using ih (inv_getId hinj h hd)

theorem inv_childPart {sup : Nat → String} (hinj : Function.Injective sup) {st : BState}
    (h : Inv sup st) (d : DataType) : Inv sup (childPart sup st d).2 := by
  cases hc : d.children with
  | arr hs => simpa [childPart, hc] using inv_mapGetIds hinj hs h
  | absent => simpa [childPart, hc] using h
  | other v => simpa [childPart, hc] using h

theorem inv_buildSend {sup : Nat → String} (hinj : Function.Injective sup) {st : BState}
    (h : Inv sup st) (i : Option String) (d : DataType) :
    Inv sup (buildSend sup st i d).2 := by
  simpa [buildSend] using inv_childPart hinj h d

theorem inv_nodesSet {sup : Nat → String} {st : BState} (h : Inv sup st)
    (i : Option String) (d : Option DataType) : Inv sup (nodesSet st i d) :=
  inv_congr rfl rfl rfl h

theorem inv_rootsSet {sup : Nat → String} {st : BState} (h : Inv sup st)
    (i : String) (b : Bool) : Inv sup (rootsSet st i b) :=
  inv_congr rfl rfl rfl h

theorem inv_onMounted {sup : Nat → String} (hinj : Function.Injective sup) {st : BState}
    (h : Inv sup st) (hd : Handle) (d : DataType) :
    Inv sup (onMounted sup st hd d).2 := by
  simpa [onMounted] using
    inv_buildSend hinj (inv_nodesSet (inv_getId hinj h hd) _ _) _ d

theorem inv_onUpdatedO {sup : Nat → String} (hinj : Function.Injective sup) {st : BState}
    (h : Inv sup st) (c : Option Handle) (d : DataType) :
    Inv sup (onUpdatedO sup st c d).2 := by
  simpa [onUpdatedO, updState] using
    inv_buildSend hinj (inv_nodesSet (inv_getIdO hinj h c) _ _) _ d

theorem inv_delIds {sup : Nat → String} {st : BState} (h : Inv sup st) (hd : Handle) :
    Inv sup (delIds st hd) := by
  obtain ⟨ha, hb⟩ := h
  cases hd with
  | prim s => exact ⟨ha, hb⟩
  | obj r =>
      refine ⟨fun r' i hri => ?_, fun r' i hri => ?_⟩
      · simp only [delIds] at hri ⊢
        by_cases hr : r' = r
        · rw [if_pos hr] at hri; cases hri
        · rw [if_neg hr] at hri
          exact ha r' i hri
      · simp only [delIds] at hri ⊢
        by_cases hr : r' = r
        · rw [if_pos hr] at hri; cases hri
        · rw [if_neg hr] at hri
          exact hb r' i hri

theorem inv_onUnmounted {sup : Nat → String} (hinj : Function.Injective sup)
    {st : BState} (h : Inv sup st) (hd : Handle) :
    Inv sup (onUnmounted sup st hd).2 := by
  simpa [onUnmounted, unmountPre] using
    inv_delIds (inv_rootsSet (inv_nodesSet (inv_getId hinj h hd) _ _) _ _) hd

theorem inv_setMut {sup : Nat → String} (hinj : Function.Injective sup) {st : BState}
    (h : Inv sup st) (k : MutKind) (i : Option String) (p : List String) (v : JVal) :
    Inv sup (match setMut sup k st i p v with | .ok pr => pr.2 | .error _ => st) := by
  cases hn : st.nodes i with
  | none => simpa [setMut, hn] using h
  | some data =>
      cases hs : setIn (fieldOf k data) p v with
      | thrown => simpa [setMut, hn, hs] using h
      | failed =>
          by_cases hu : canUpd data.updater = true
          · simpa [setMut, hn, hs, hu] using
              inv_onUpdatedO hinj h (compsLookup st i) data
          · simpa [setMut, hn, hs, hu] using h
      | ok nv =>
          by_cases hu : canUpd data.updater = true
          · simpa [setMut, hn, hs, hu] using
              inv_onUpdatedO hinj (inv_nodesSet h i (some (withField k data nv)))
                (compsLookup st i) (withField k data nv)
          · simpa [setMut, hn, hs, hu] using
              inv_nodesSet h i (some (withField k data nv))

theorem inv_exec {sup : Nat → String} (hinj : Function.Injective sup) {st : BState}
    (h : Inv sup st) (a : Act) : Inv sup (exec sup a st) := by
  cases a with
  | getId hd => exact inv_getId hinj h hd
  | addRoot hd =>
      simpa [exec, addRoot] using inv_rootsSet (inv_getId hinj h hd) _ _
  | onMounted hd d => exact inv_onMounted hinj h hd d
  | onUpdated hd d => exact inv_onUpdatedO hinj h (some hd) d
  | onUnmounted hd => exact inv_onUnmounted hinj h hd
  | setMut k i p v => exact inv_setMut hinj h k i p v
  | setInternals i => exact inv_congr rfl rfl rfl h

theorem reach_inv {sup : Nat → String} (hinj : Function.Injective sup) {st : BState}
    (h : Reach sup st) : Inv sup st := by
  induction h with
  | init i => exact inv_init sup i
  | step h a ih => exact inv_exec hinj ih a

/-! ## Outbound message lemmas -/

theorem lookupKey_setKey_self (l : List (String × MVal)) (k : String) (v : MVal) :
    lookupKey (setKey l k v) k = some v := by
  induction l with
  | nil => simp [setKey, lookupKey]
  | cons p t ih =>
      by_cases h : p.1 = k
      · simp [setKey, h, lookupKey]
      · simp [setKey, h, lookupKey, ih]

theorem lookupKey_setKey_other (l : List (String × MVal)) (k k' : String) (v : MVal)
    (h : k' ≠ k) : lookupKey (setKey l k v) k' = lookupKey l k' := by
  induction l with
  | nil => simp [setKey, lookupKey, Ne.symm h]
  | cons p t ih =>
      by_cases hp : p.1 = k
      · have hp' : p.1 ≠ k' := by rw [hp]; exact Ne.symm h
        simp [setKey, hp, lookupKey, hp', Ne.symm h]
      · by_cases hq : p.1 = k'
        · simp [setKey, hp, lookupKey, hq, h]
        · simp [setKey, hp, lookupKey, hq, ih]

theorem lookupKey_delKey_self (l : List (String × MVal)) (k : String) :
    lookupKey (delKey l k) k = none := by
  induction l with
  | nil => simp [delKey, lookupKey]
  | cons p t ih =>
      by_cases h : p.1 = k
      · simp [delKey, h, ih]
      · simp [delKey, h, lookupKey, ih]

theorem lookupKey_delKey_other (l : List (String × MVal)) (k k' : String)
    (h : k' ≠ k) : lookupKey (delKey l k) k' = lookupKey l k' := by
  induction l with
  | nil => simp [delKey]
  | cons p t ih =>
      by_cases hp : p.1 = k
      · have hp' : p.1 ≠ k' := by rw [hp]; exact Ne.symm h
        simp [delKey, hp, lookupKey, hp', Ne.symm h, ih]
      · by_cases hq : p.1 = k'
        · simp [delKey, hp, lookupKey, hq, h]
        · simp [delKey, hp, lookupKey, hq, ih]

theorem toPairs_name (d : DataType) : lookupKey d.toPairs "name" = some (.jv d.name) := rfl

theorem toPairs_type (d : DataType) : lookupKey d.toPairs "type" = some (.jv d.type) := rfl

theorem toPairs_state (d : DataType) : lookupKey d.toPairs "state" = some (.jv d.state) := rfl

theorem toPairs_props (d : DataType) : lookupKey d.toPairs "props" = some (.jv d.props) := rfl

theorem toPairs_context (d : DataType) :
    lookupKey d.toPairs "context" = some (.jv d.context) := rfl

theorem toPairs_children_absent (d : DataType) (h : d.children = .absent) :
    lookupKey d.toPairs "children" = none := by
  cases hu : d.updater <;> simp [DataType.toPairs, h, hu, lookupKey]

/-- Shape of the copied message after the children rewrite, looked up at
the descriptive keys (all untouched by the rewrite). -/
theorem childPart_lookup_of_ne (sup : Nat → String) (stc : BState) (d : DataType)
    (k : String) (h : k ≠ "children") :
    lookupKey (childPart sup stc d).1 k = lookupKey d.toPairs k := by
  cases hc : d.children with
  | arr hs => simp [childPart, hc, lookupKey_setKey_other _ _ _ _ h]
  | absent => simp [childPart, hc]
  | other v => simp [childPart, hc]

theorem buildSend_sendSpec (sup : Nat → String) (stc : BState) (i : Option String)
    (d : DataType) : sendSpec sup d i stc (buildSend sup stc i d).1 := by
  have hbase : ∀ k : String, k ≠ "updater" → k ≠ "type" → k ≠ "canUpdate" → k ≠ "id" →
      lookupKey (buildSend sup stc i d).1 k = lookupKey (childPart sup stc d).1 k := by
    intro k h1 h2 h3 h4
    rw [buildSend, lookupKey_delKey_other _ "updater" k h1,
      lookupKey_delKey_other _ "type" k h2,
      lookupKey_setKey_other _ "canUpdate" k _ h3,
      lookupKey_setKey_other _ "id" k _ h4]
  refine ⟨?_, ?_, ?_, ?_, ?_, ?_, ?_, ?_, ?_, ?_⟩
  · rw [buildSend, lookupKey_delKey_other _ "updater" "type" (by decide),
      lookupKey_delKey_self]
  · rw [buildSend, lookupKey_delKey_self]
  · rw [buildSend, lookupKey_delKey_other _ "updater" "id" (by decide),
      lookupKey_delKey_other _ "type" "id" (by decide),
      lookupKey_setKey_other _ "canUpdate" "id" _ (by decide), lookupKey_setKey_self]
  · rw [buildSend, lookupKey_delKey_other _ "updater" "canUpdate" (by decide),
      lookupKey_delKey_other _ "type" "canUpdate" (by decide), lookupKey_setKey_self]
  · rw [hbase "name" (by decide) (by decide) (by decide) (by decide),
      childPart_lookup_of_ne _ _ _ _ (by decide), toPairs_name]
  · rw [hbase "state" (by decide) (by decide) (by decide) (by decide),
      childPart_lookup_of_ne _ _ _ _ (by decide), toPairs_state]
  · rw [hbase "props" (by decide) (by decide) (by decide) (by decide),
      childPart_lookup_of_ne _ _ _ _ (by decide), toPairs_props]
  · rw [hbase "context" (by decide) (by decide) (by decide) (by decide),
      childPart_lookup_of_ne _ _ _ _ (by decide), toPairs_context]
  · intro hs hc
    rw [hbase "children" (by decide) (by decide) (by decide) (by decide)]
    simp [childPart, hc, lookupKey_setKey_self]
  · intro hc
    rw [hbase "children" (by decide) (by decide) (by decide) (by decide)]
    simp [childPart, hc, toPairs_children_absent d hc]

theorem mountState_nodes_self (sup : Nat → String) (st : BState) (h : Handle)
    (d : DataType) :
    (mountState sup st h d).nodes (some (getId sup st h).1) = some d := by
  simp [mountState, nodesSet]

/-! ## Claims -/

/-- Claim C1, counterexample: the mutual-inverse invariant of `ids` and
`comps` fails on a reachable state. Register an object handle and unmount
it: `onUnmounted` deletes the handle from `ids` but leaves the
identifier's entry in `comps`, so `comps` maps the identifier to the
handle while `ids` no longer maps the handle to the identifier. -/
theorem claim_C1_cex :
    Reach sup0 st1u ∧ st1u.comps (sup0 0) = some (.obj 0) ∧ st1u.ids 0 = none :=
  ⟨Reach.step (Reach.step (Reach.init none) (.getId (.obj 0))) (.onUnmounted (.obj 0)),
   rfl, rfl⟩

/-- Claim C1, amended: in every reachable state (for a collision-free
identifier supply) the forward direction holds — whenever `ids` maps a
handle to an identifier, `comps` maps that identifier back to that
handle. The converse direction is not invariant, because `onUnmounted`
never deletes from `comps`. -/
theorem claim_C1_amended (sup : Nat → String) (st : BState)
    (hinj : Function.Injective sup) (h : Reach sup st) :
    ∀ r i, st.ids r = some i → st.comps i = some (.obj r) :=
  (reach_inv hinj h).1

/-- Witness for the amended C1 at a concrete reachable state. -/
theorem claim_C1_witness : st1r.comps (sup0 0) = some (.obj 0) :=
  claim_C1_amended sup0 st1r sup0_inj
    (Reach.step (Reach.init none) (.getId (.obj 0))) 0 (sup0 0) rfl

/-- Claim C2: for a tracked handle, at the moment the unmount event is
emitted the identifier is already gone from the node store and the root
set while the handle→identifier association still exists, and the
association is deleted only after the emit. `unmountPre` is by
definition the state at emission time; the final state of `onUnmounted`
is exactly `unmountPre` with the `ids` entry deleted. -/
theorem claim_C2 (sup : Nat → String) (st : BState) (r : Nat) (i : String)
    (h : st.ids r = some i) :
    (unmountPre sup st (.obj r)).1 = i ∧
    (unmountPre sup st (.obj r)).2.nodes (some i) = none ∧
    (unmountPre sup st (.obj r)).2.roots i = false ∧
    (unmountPre sup st (.obj r)).2.ids r = some i ∧
    (onUnmounted sup st (.obj r)).1.events = [.unmount i] ∧
    (onUnmounted sup st (.obj r)).2 = delIds (unmountPre sup st (.obj r)).2 (.obj r) ∧
    (onUnmounted sup st (.obj r)).2.ids r = none := by
  refine ⟨?_, ?_, ?_, ?_, ?_, rfl, ?_⟩ <;>
    simp [onUnmounted, unmountPre, getId_known h, delIds, rootsSet, nodesSet, h]

/-- Witness for C2 at a concrete tracked handle. -/
theorem claim_C2_witness :
    (unmountPre sup0 st1r (.obj 0)).1 = sup0 0 ∧
    (unmountPre sup0 st1r (.obj 0)).2.nodes (some (sup0 0)) = none ∧
    (unmountPre sup0 st1r (.obj 0)).2.roots (sup0 0) = false ∧
    (unmountPre sup0 st1r (.obj 0)).2.ids 0 = some (sup0 0) ∧
    (onUnmounted sup0 st1r (.obj 0)).1.events = [.unmount (sup0 0)] ∧
    (onUnmounted sup0 st1r (.obj 0)).2
      = delIds (unmountPre sup0 st1r (.obj 0)).2 (.obj 0) ∧
    (onUnmounted sup0 st1r (.obj 0)).2.ids 0 = none :=
  claim_C2 sup0 st1r 0 (sup0 0) rfl

/-- Claim C3, counterexample: a mutation command on a snapshot with no
updater capability emits no events and logs the warning, but the stored
snapshot does NOT stay unchanged — the path write runs before the
updater check, so the stored props of identifier A change from
`{x: 1}` to `{x: 5}`. -/
theorem claim_C3_cex :
    dataA.props = .obj [("x", .num 1)] ∧
    (setMut sup0 .props stA (some "A") ["x"] (.num 5)).toOption.map
        (fun p => (p.1.events, p.1.logs, p.2.nodes (some "A")))
      = some ([], [warnMsg .props], some { dataA with props := .obj [("x", .num 5)] }) :=
  ⟨rfl, rfl⟩

/-- Claim C3, amended: when the stored snapshot has no usable updater
capability, the mutation command is rejected with the logged warning,
emits zero outbound events and never invokes the host trigger — but the
targeted field of the stored snapshot may still have been overwritten by
the path write (which precedes the check), and a path write that throws
propagates the exception without the warning. -/
theorem claim_C3_amended (sup : Nat → String) (k : MutKind) (st : BState)
    (i : Option String) (data : DataType) (path : List String) (v : JVal)
    (hn : st.nodes i = some data) (hu : canUpd data.updater = false) :
    setMut sup k st i path v = .error () ∨
    (setMut sup k st i path v).toOption.map
        (fun p => (p.1.events, p.1.triggers, p.1.logs))
      = some ([], 0, [warnMsg k]) := by
  cases hs : setIn (fieldOf k data) path v with
  | thrown => left; simp [setMut, hn, hs]
  | failed => right; simp [setMut, hn, hs, hu, emptyEff, Except.toOption]
  | ok nv => right; simp [setMut, hn, hs, hu, emptyEff, Except.toOption]

/-- Witness for the amended C3 at the concrete no-updater snapshot. -/
theorem claim_C3_witness :
    setMut sup0 .props stA (some "A") ["x"] (.num 5) = .error () ∨
    (setMut sup0 .props stA (some "A") ["x"] (.num 5)).toOption.map
        (fun p => (p.1.events, p.1.triggers, p.1.logs))
      = some ([], 0, [warnMsg .props]) :=
  claim_C3_amended sup0 .props stA (some "A") dataA ["x"] (.num 5) rfl rfl

/-- Claim C4: the outbound mount and update messages carry the attached
id, the derived `canUpdate` boolean (true exactly when an updater with
the trigger is present), the copied descriptive fields, children
rewritten element-wise to identifiers when sequence-valued, and no
`type` or `updater` key. -/
theorem claim_C4 (sup : Nat → String) (st : BState) (h : Handle) (d : DataType) :
    (onMounted sup st h d).1.events = [.mount (mountSend sup st h d)] ∧
    sendSpec sup d (some (getId sup st h).1) (mountState sup st h d)
      (mountSend sup st h d) ∧
    (onUpdated sup st h d).1.events = [.update (updSend sup st (some h) d)] ∧
    sendSpec sup d (some (getId sup st h).1) (updState sup st (some h) d)
      (updSend sup st (some h) d) ∧
    (canUpd d.updater = true ↔ ∃ u, d.updater = some u ∧ u.forceUpdate = true) := by
  refine ⟨rfl, ?_, rfl, ?_, ?_⟩
  · exact buildSend_sendSpec sup (mountState sup st h d) _ d
  · exact buildSend_sendSpec sup (updState sup st (some h) d) _ d
  · cases d.updater with
    | none => simp [canUpd]
    | some u => simp [canUpd]

/-- Witness for C4: the children of a concrete mounted snapshot appear in
the message as identifiers. -/
theorem claim_C4_witness :
    lookupKey (mountSend sup0 (initState none) (.obj 0) dataB) "children"
      = some (.chI (mapGetIds sup0 (mountState sup0 (initState none) (.obj 0) dataB)
          [.obj 5, .prim "leaf"]).1) := by
  have hspec := (claim_C4 sup0 (initState none) (.obj 0) dataB).2.1
  exact hspec.2.2.2.2.2.2.2.2.1 [.obj 5, .prim "leaf"] rfl

/-- Claim C5 is right and the code is wrong: `setIn` on a path whose
missing intermediate is the direct parent of the last key reaches the
assignment with an `undefined` child — the `child === null` guard does
not catch `undefined` — and throws a TypeError instead of returning
failure. The model evaluates the failing input `setIn({}, ["a","b"], 1)`
to the thrown outcome. -/
theorem claim_C5_bug : setIn (.obj []) ["a", "b"] (.num 1) = .thrown := rfl

/-- Claim C6: on any path whose intermediate containers all exist,
`setIn` succeeds and a subsequent `getIn` at the same path reads back
exactly the written value. -/
theorem claim_C6 (root : JVal) (inter : List String) (name : String) (v : JVal)
    (h : interOk root inter = true) :
    setThenGet root (inter ++ [name]) v = some v := by
  obtain ⟨r, hset, hget⟩ := setInGo_roundtrip inter root name v h
  simp [setThenGet, setIn_append, hset, hget]

/-- Witness for C6 on the concrete object `{a: {b: {}}}`. -/
theorem claim_C6_witness :
    setThenGet root0 (["a", "b"] ++ ["c"]) (.num 7) = some (.num 7) :=
  claim_C6 root0 ["a", "b"] "c" (.num 7) rfl

/-- Claim C7, counterexample: a mutation command carrying an unknown
identifier is not logged or dropped — reading `.props` of the undefined
snapshot throws a TypeError. -/
theorem claim_C7_cex :
    setMut sup0 .props (initState none) (some "ghost") ["x"] (.num 1) = .error () := rfl

/-- Claim C7, amended: `highlight` on an identifier that resolves to no
native node emits nothing and does not throw, and `scrollToNode` on such
an identifier logs the warning and returns without throwing; but the
mutation commands on an unknown identifier throw instead of logging, and
`highlight` can itself throw when the adapter still resolves a node for
an identifier absent from the node store. -/
theorem claim_C7_amended (st : BState) (i : Option String)
    (h : getNodeForID st i = none) :
    highlight st i = .ok emptyEff ∧
    scrollToNode st i
      = .ok { emptyEff with logs := ["unable to get the node for scrolling"] } := by
  constructor <;> simp [highlight, scrollToNode, h]

/-- Witness for the amended C7 on an identifier with no registry entry. -/
theorem claim_C7_witness :
    highlight (initState none) (some "q") = .ok emptyEff ∧
    scrollToNode (initState none) (some "q")
      = .ok { emptyEff with logs := ["unable to get the node for scrolling"] } :=
  claim_C7_amended (initState none) (some "q") rfl

/-- Claim C8: with a collision-free identifier supply, distinct
concurrently tracked object handles hold distinct identifiers in every
reachable state, and after unmounting a tracked handle a fresh `getId`
on the same handle returns an identifier different from the original. -/
theorem claim_C8 (sup : Nat → String) (st : BState)
    (hinj : Function.Injective sup) (hr : Reach sup st) :
    (∀ r1 r2 i1 i2, r1 ≠ r2 → st.ids r1 = some i1 → st.ids r2 = some i2 → i1 ≠ i2) ∧
    (∀ r i, st.ids r = some i →
      (getId sup (onUnmounted sup st (.obj r)).2 (.obj r)).1 ≠ i) := by
  obtain ⟨ha, hb⟩ := reach_inv hinj hr
  constructor
  · intro r1 r2 i1 i2 hne h1 h2 he
    apply hne
    have e1 := ha r1 i1 h1
    have e2 := ha r2 i2 h2
    rw [← he] at e2
    rw [e1] at e2
    simpa using e2
  · intro r i hri hgot
    obtain ⟨k, hk, hik⟩ := hb r i hri
    have hids : (onUnmounted sup st (.obj r)).2.ids r = none := by
      simp [onUnmounted, unmountPre, getId_known hri, delIds, rootsSet, nodesSet]
    have hctr : (onUnmounted sup st (.obj r)).2.ctr = st.ctr := by
      simp [onUnmounted, unmountPre, getId_known hri, delIds, rootsSet, nodesSet]
    have hfst : (getId sup (onUnmounted sup st (.obj r)).2 (.obj r)).1 = sup st.ctr := by
      simp [getId, hids, hctr]
    rw [hfst, hik] at hgot
    exact absurd (hinj hgot).symm (Nat.ne_of_lt hk)

/-- Witness for C8: two concrete registered handles carry distinct
identifiers, and re-registration after unmount yields a fresh one. -/
theorem claim_C8_witness :
    sup0 0 ≠ sup0 1 ∧
    (getId sup0 (onUnmounted sup0 st2r (.obj 0)).2 (.obj 0)).1 ≠ sup0 0 := by
  have h := claim_C8 sup0 st2r sup0_inj
    (Reach.step (Reach.step (Reach.init none) (.getId (.obj 0))) (.getId (.obj 1)))
  exact ⟨h.1 0 1 (sup0 0) (sup0 1) (by decide) rfl rfl, h.2 0 (sup0 0) rfl⟩

/-- Claim C9: `getId` on a registered object handle is idempotent — after
any call, the registry maps the handle to the returned identifier, and
while the handle stays registered every further call returns the same
identifier and leaves the whole state unchanged. -/
theorem claim_C9 (sup : Nat → String) (st : BState) (r : Nat) :
    (getId sup st (.obj r)).2.ids r = some (getId sup st (.obj r)).1 ∧
    ∀ i, st.ids r = some i → getId sup st (.obj r) = (i, st) :=
  ⟨getId_ids_self sup st r, fun _ h => getId_known h⟩

/-- Witness for C9 at a concrete registered handle. -/
theorem claim_C9_witness : getId sup0 st1r (.obj 0) = (sup0 0, st1r) :=
  (claim_C9 sup0 st1r 0).2 (sup0 0) rfl

/-- Claim C10: the mount and update handlers store the snapshot exactly
as supplied — the outbound transform works on a shallow copy, so the
stored snapshot keeps its original `type` tag, `updater` capability
record and `children` unchanged. -/
theorem claim_C10 (sup : Nat → String) (st : BState) (h : Handle) (d : DataType) :
    (onMounted sup st h d).2.nodes (some (getId sup st h).1) = some d ∧
    (onUpdated sup st h d).2.nodes (some (getId sup st h).1) = some d := by
  refine ⟨?_, ?_⟩ <;>
    simp [onMounted, onUpdated, onUpdatedO, buildSend_nodes, mountState, updState,
      nodesSet, getIdO]

end Backend
